import Mathlib

/-!
Shallow embedding of the keyframe timeline engine of the Stickman repository
(src/types.ts and src/App.tsx).  JavaScript numbers are modelled as rationals;
JavaScript objects used as string-keyed dictionaries (the `Pose` type) are
modelled as association lists; React `useState`/`useRef` cells are gathered
into an explicit `AppState` record, and each event handler of `App` becomes a
function from state to state.  The per-frame callback of `AnimationRunner`
(`useFrame`) becomes the `tick` function; the calls it makes to its
`onUpdatePose` / `onLoopEnd` callbacks are recorded in the returned `TickOut`
trace.
-/

set_option autoImplicit false
set_option maxRecDepth 8000

namespace Stickman

/-- src/types.ts: `JointRotation` — three scalar angles. -/
structure JointRotation where
  x : ℚ
  y : ℚ
  z : ℚ
deriving DecidableEq, Repr

/-- src/types.ts: `Pose = Record<string, JointRotation>`, modelled as an
association list (first binding wins on lookup, like a JS object read). -/
abbrev Pose := List (String × JointRotation)

/-- src/types.ts: `INITIAL_POSE` — the rest pose, written in source order. -/
def INITIAL_POSE : Pose :=
  [("torso", ⟨0, 0, 0⟩),
   ("head", ⟨0, 0, 0⟩),
   ("upperArmL", ⟨0, 0, -(1/2)⟩),
   ("lowerArmL", ⟨0, 0, 0⟩),
   ("upperArmR", ⟨0, 0, 1/2⟩),
   ("lowerArmR", ⟨0, 0, 0⟩),
   ("upperLegL", ⟨0, 0, -(1/5)⟩),
   ("lowerLegL", ⟨0, 0, 0⟩),
   ("upperLegR", ⟨0, 0, 1/5⟩),
   ("lowerLegR", ⟨0, 0, 0⟩)]

/-- src/types.ts: `Keyframe` — id, pose and the duration (ms) to reach this
frame from the previous one. -/
structure Keyframe where
  id : String
  pose : Pose
  duration : ℚ
deriving DecidableEq, Repr

/-- Placeholder used to totalise JS array indexing `keyframes[i]`; every
theorem below keeps the index in range, where the placeholder is irrelevant. -/
def dummyKf : Keyframe := ⟨"", [], 0⟩

/-- src/App.tsx lines 133-137: per-joint linear interpolation,
`start + (end - start) * alpha` on each axis. -/
def lerpRot (s e : JointRotation) (alpha : ℚ) : JointRotation :=
  ⟨s.x + (e.x - s.x) * alpha,
   s.y + (e.y - s.y) * alpha,
   s.z + (e.z - s.z) * alpha⟩

/-- src/App.tsx lines 127-138: the pose built by one evaluation step.  The
source iterates over `Object.keys(INITIAL_POSE)` and reads
`frame.pose[key] || INITIAL_POSE[key]` (an object is always truthy, so the
fallback fires exactly when the key is absent). -/
def lerpPose (sp ep : Pose) (alpha : ℚ) : Pose :=
  INITIAL_POSE.map (fun p =>
    (p.1, lerpRot ((sp.lookup p.1).getD p.2) ((ep.lookup p.1).getD p.2) alpha))

/-- The rest-pose rotation of a joint (`INITIAL_POSE[key]`). -/
def restRot (k : String) : JointRotation :=
  (INITIAL_POSE.lookup k).getD ⟨0, 0, 0⟩

/-- src/components/Stickman.tsx line 478 (second source file):
`const getRot = (id) => pose[id] ? getRotation(pose[id]) : [0,0,0]` —
the renderer falls back to the zero rotation, not to the rest pose. -/
def getRot (pose : Pose) (id : String) : ℚ × ℚ × ℚ :=
  match pose.lookup id with
  | some r => (r.x, r.y, r.z)
  | none => (0, 0, 0)

/-- Lookup in an association list whose values were rewritten in place
(keys untouched). -/
theorem lookup_map_assoc (f : String → JointRotation → JointRotation) :
    ∀ (l : Pose) (k : String),
      (l.map (fun p => (p.1, f p.1 p.2))).lookup k =
        (l.lookup k).map (fun r => f k r) := by
  intro l
  induction l with
  | nil => intro k; rfl
  | cons hd tl ih =>
    intro k
    by_cases hk : k = hd.1
    · subst hk
      simp [List.lookup]
    · have hb : (k == hd.1) = false := by
        simp [hk]
      simp [List.lookup, hb, ih]

/-- Lookup in a `lerpPose` result: canonical keys hold the interpolated
rotation (with rest-pose fallback for missing entries), other keys are
absent. -/
theorem lookup_lerpPose (sp ep : Pose) (alpha : ℚ) (k : String) :
    (lerpPose sp ep alpha).lookup k =
      (INITIAL_POSE.lookup k).map
        (fun r => lerpRot ((sp.lookup k).getD r) ((ep.lookup k).getD r) alpha) := by
  have h := lookup_map_assoc
    (fun key r => lerpRot ((sp.lookup key).getD r) ((ep.lookup key).getD r) alpha)
    INITIAL_POSE k
  exact h

/-- Truncation toward zero, as the implicit integer part of the JS `%`
operator on numbers. -/
def jsTrunc (q : ℚ) : ℤ :=
  if 0 ≤ q then ⌊q⌋ else ⌈q⌉

/-- The JS remainder operator `a % b` on numbers: `a - b * trunc(a / b)`. -/
def jsMod (a b : ℚ) : ℚ :=
  a - b * jsTrunc (a / b)

/-- src/App.tsx line 88: `keyframes.reduce((acc, kf) => acc + kf.duration, 0)`. -/
def totalDuration (kfs : List Keyframe) : ℚ :=
  kfs.foldl (fun acc kf => acc + kf.duration) 0

/-- src/App.tsx lines 107-116: the segment-search loop.  `i` is the running
loop index, `acc` the running `accumulatedTime`; the loop breaks at the first
keyframe whose cumulative duration exceeds `elapsed`, returning that index and
the accumulated time before it.  If the loop falls through (unreachable when
`elapsed` is in range), `startFrameIndex` keeps its initial value 0 while
`accumulatedTime` holds the full sum, exactly as in the source. -/
def findSegmentAux (elapsed : ℚ) : List Keyframe → ℕ → ℚ → ℕ × ℚ
  | [], _i, acc => (0, acc)
  | kf :: rest, i, acc =>
    if elapsed < acc + kf.duration then (i, acc)
    else findSegmentAux elapsed rest (i + 1) (acc + kf.duration)

/-- src/App.tsx lines 104-140 minus the wrap (`%`) step: given the wrapped
elapsed time, find the active segment, take its start frame and the cyclically
next frame, and lerp with `alpha = segmentTime / startFrame.duration`. -/
def evalPose (kfs : List Keyframe) (elapsed : ℚ) : Pose :=
  lerpPose
    (kfs.getD (findSegmentAux elapsed kfs 0 0).1 dummyKf).pose
    (kfs.getD (((findSegmentAux elapsed kfs 0 0).1 + 1) % kfs.length) dummyKf).pose
    ((elapsed - (findSegmentAux elapsed kfs 0 0).2) /
      (kfs.getD (findSegmentAux elapsed kfs 0 0).1 dummyKf).duration)

/-- The non-recording evaluation path of one frame: wrap the raw elapsed time
by the total loop duration (src/App.tsx line 104) and evaluate. -/
def evalAt (kfs : List Keyframe) (diff : ℚ) : Pose :=
  evalPose kfs (jsMod diff (totalDuration kfs))

/-- Cumulative duration of the first `j` keyframes (the cumulative notion of the spec,
`cumulative(j)`, with `cum 0 = 0`). -/
def cum (kfs : List Keyframe) (j : ℕ) : ℚ :=
  ((kfs.take j).map Keyframe.duration).sum

/-- The React state of `App` (src/App.tsx lines 154-161) together with the
two refs of `AnimationRunner` (lines 81-82).  `pausedTime` is never written
anywhere in the source; it stays at its initial 0. -/
structure AppState where
  currentPose : Pose
  keyframes : List Keyframe
  isPlaying : Bool
  isRecording : Bool
  playbackPose : Option Pose
  startTime : ℚ
  pausedTime : ℚ
deriving DecidableEq, Repr

/-- src/App.tsx lines 176-183: append a keyframe holding a deep copy of the
live pose with the default duration 1000 ms.  `crypto.randomUUID()` is taken
as a parameter.  Note: the handler consults no playback state; the UI merely
renders the button `disabled` while playing. -/
def handleAddKeyframe (newId : String) (s : AppState) : AppState :=
  { s with keyframes := s.keyframes ++ [⟨newId, s.currentPose, 1000⟩] }

/-- src/App.tsx line 186, the list operation of `handleUpdateKeyframeDuration`:
`prev.map(kf => kf.id === id ? { ...kf, duration } : kf)`. -/
def updateDurationList (id : String) (d : ℚ) (kfs : List Keyframe) : List Keyframe :=
  kfs.map (fun kf => if kf.id = id then { kf with duration := d } else kf)

/-- src/App.tsx line 190, the list operation of `handleDeleteKeyframe`:
`prev.filter(kf => kf.id !== id)`. -/
def removeList (id : String) (kfs : List Keyframe) : List Keyframe :=
  kfs.filter (fun kf => kf.id != id)

/-- src/App.tsx lines 185-187. -/
def handleUpdateKeyframeDuration (id : String) (d : ℚ) (s : AppState) : AppState :=
  { s with keyframes := updateDurationList id d s.keyframes }

/-- src/App.tsx lines 189-191. -/
def handleDeleteKeyframe (id : String) (s : AppState) : AppState :=
  { s with keyframes := removeList id s.keyframes }

/-- src/App.tsx lines 193-200: toggle play; reading `isPlaying` inside the
handler sees the pre-toggle value, so the pose/recording reset fires exactly
when the handler is entered in the playing state. -/
def handlePlayToggle (s : AppState) : AppState :=
  if s.keyframes.length < 1 then s
  else
    let s1 : AppState := { s with isPlaying := !s.isPlaying }
    if s.isPlaying then { s1 with playbackPose := none, isRecording := false } else s1

/-- src/App.tsx lines 202-210: start recording.  With fewer than 2 keyframes
the handler raises the alert dialog and returns without touching any state;
the returned `Option String` carries the alert message. -/
def handleExportVideo (s : AppState) : AppState × Option String :=
  if s.keyframes.length < 2 then
    (s, some "Need at least 2 keyframes to record.")
  else
    ({ s with isRecording := true, isPlaying := true }, none)

/-- src/App.tsx lines 212-218: the `onLoopEnd` callback. -/
def handleRecordingLoopEnd (s : AppState) : AppState :=
  { s with isPlaying := false, isRecording := false, playbackPose := none }

/-- src/App.tsx lines 144-148: the effect that zeroes the timer anchor
whenever `isPlaying` has become false. -/
def resetTimerEffect (s : AppState) : AppState :=
  if s.isPlaying then s else { s with startTime := 0 }

/-- Result of one `useFrame` callback: the state after all queued updates,
whether `onLoopEnd` was called, and the poses passed to `onUpdatePose`. -/
structure TickOut where
  state : AppState
  loopEnd : Bool
  posesPushed : List Pose
deriving DecidableEq, Repr

/-- src/App.tsx lines 84-141: one frame of `AnimationRunner`.  `now` is
`state.clock.getElapsedTime() * 1000`.  The callbacks are the `App` handlers:
`onUpdatePose = setPlaybackPose` and `onLoopEnd = handleRecordingLoopEnd`. -/
def tick (now : ℚ) (s : AppState) : TickOut :=
  if s.isPlaying = false ∨ s.keyframes.length < 2 then ⟨s, false, []⟩
  else
    let total := totalDuration s.keyframes
    let anchor := if s.startTime = 0 then now - s.pausedTime else s.startTime
    let s1 : AppState := { s with startTime := anchor }
    let diff := now - anchor
    if s1.isRecording = true ∧ total ≤ diff then
      let lastPose := (s1.keyframes.getD (s1.keyframes.length - 1) dummyKf).pose
      ⟨handleRecordingLoopEnd { s1 with playbackPose := some lastPose },
        true, [lastPose]⟩
    else
      let p := evalPose s1.keyframes (jsMod diff total)
      ⟨{ s1 with playbackPose := some p }, false, [p]⟩

/-- src/App.tsx line 225:
`renderedPose = isPlaying && playbackPose ? playbackPose : currentPose`. -/
def renderedPose (s : AppState) : Pose :=
  if s.isPlaying then
    match s.playbackPose with
    | some p => p
    | none => s.currentPose
  else s.currentPose

theorem totalDuration_foldl (l : List Keyframe) :
    ∀ a : ℚ, l.foldl (fun acc kf => acc + kf.duration) a =
      a + (l.map Keyframe.duration).sum := by
  induction l with
  | nil => intro a; simp
  | cons hd tl ih =>
    intro a
    simp only [List.foldl_cons, List.map_cons, List.sum_cons, ih]
    ring

theorem totalDuration_eq (kfs : List Keyframe) :
    totalDuration kfs = (kfs.map Keyframe.duration).sum := by
  simpa [totalDuration] using totalDuration_foldl kfs 0

theorem totalDuration_pos (kfs : List Keyframe) (hne : kfs ≠ [])
    (hd : ∀ kf ∈ kfs, 0 < kf.duration) : 0 < totalDuration kfs := by
  rw [totalDuration_eq]
  apply List.sum_pos
  · intro x hx
    obtain ⟨kf, hkf, rfl⟩ := List.mem_map.mp hx
    exact hd kf hkf
  · simpa using hne

theorem jsMod_zero_left (b : ℚ) : jsMod 0 b = 0 := by
  simp [jsMod, jsTrunc]

theorem jsMod_eq_fract (a b : ℚ) (ha : 0 ≤ a) (hb : 0 < b) :
    jsMod a b = b * Int.fract (a / b) := by
  have hbne : b ≠ 0 := ne_of_gt hb
  rw [jsMod, jsTrunc, if_pos (div_nonneg ha hb.le), Int.fract]
  field_simp

theorem jsMod_nonneg (a b : ℚ) (ha : 0 ≤ a) (hb : 0 < b) : 0 ≤ jsMod a b := by
  rw [jsMod_eq_fract a b ha hb]
  exact mul_nonneg hb.le (Int.fract_nonneg _)

theorem jsMod_lt (a b : ℚ) (ha : 0 ≤ a) (hb : 0 < b) : jsMod a b < b := by
  rw [jsMod_eq_fract a b ha hb]
  calc b * Int.fract (a / b) < b * 1 :=
        mul_lt_mul_of_pos_left (Int.fract_lt_one _) hb
    _ = b := mul_one b

theorem jsMod_add_nat_mul (a b : ℚ) (k : ℕ) (ha : 0 ≤ a) (hb : 0 < b) :
    jsMod (a + k * b) b = jsMod a b := by
  have hbne : b ≠ 0 := ne_of_gt hb
  have hdiv : (a + k * b) / b = a / b + k := by
    field_simp
  have hnn : 0 ≤ a / b := div_nonneg ha hb.le
  have hnn2 : 0 ≤ a / b + (k : ℚ) := by positivity
  rw [jsMod, jsMod, jsTrunc, jsTrunc, hdiv, if_pos hnn2, if_pos hnn,
    Int.floor_add_nat]
  push_cast
  ring

theorem cum_zero (kfs : List Keyframe) : cum kfs 0 = 0 := rfl

theorem cum_cons_succ (kf : Keyframe) (rest : List Keyframe) (j : ℕ) :
    cum (kf :: rest) (j + 1) = kf.duration + cum rest j := by
  simp [cum]

/-- Loop invariant of the segment-search loop: started at index `i` with
accumulated time `acc ≤ e` and enough remaining duration, it stops at the
first keyframe `j` (relative to the remaining list) whose cumulative
duration exceeds `e`, returning `(i + j, acc + cum j)`. -/
theorem findSegmentAux_spec (e : ℚ) :
    ∀ (post : List Keyframe) (i : ℕ) (acc : ℚ),
      acc ≤ e → e - acc < ((post.map Keyframe.duration)).sum →
      ∃ j, j < post.length ∧
        findSegmentAux e post i acc = (i + j, acc + cum post j) ∧
        e < acc + cum post (j + 1) ∧
        acc + cum post j ≤ e ∧
        (∀ m, m < j → acc + cum post (m + 1) ≤ e) := by
  intro post
  induction post with
  | nil =>
    intro i acc h1 h2
    exfalso
    simp only [List.map_nil, List.sum_nil] at h2
    linarith
  | cons kf rest ih =>
    intro i acc h1 h2
    by_cases hlt : e < acc + kf.duration
    · refine ⟨0, by simp, ?_, ?_, ?_, ?_⟩
      · simp [findSegmentAux, if_pos hlt, cum_zero]
      · rw [cum_cons_succ, cum_zero]
        linarith
      · rw [cum_zero]
        linarith
      · intro m hm
        exact absurd hm (Nat.not_lt_zero m)
    · have hge : acc + kf.duration ≤ e := not_lt.mp hlt
      have h2' : e - (acc + kf.duration) < (rest.map Keyframe.duration).sum := by
        simp only [List.map_cons, List.sum_cons] at h2
        linarith
      obtain ⟨j, hjlen, heq, hlt2, hge2, hmin⟩ := ih (i + 1) (acc + kf.duration) hge h2'
      refine ⟨j + 1, by simpa using Nat.succ_lt_succ hjlen, ?_, ?_, ?_, ?_⟩
      · rw [findSegmentAux, if_neg hlt, heq]
        refine Prod.ext ?_ ?_
        · simp; omega
        · simp [cum_cons_succ]
          ring
      · rw [cum_cons_succ]
        linarith
      · rw [cum_cons_succ]
        linarith
      · intro m hm
        match m with
        | 0 =>
          rw [cum_cons_succ, cum_zero]
          linarith
        | Nat.succ m2 =>
          have hm2 := hmin m2 (by omega)
          rw [cum_cons_succ]
          linarith

/-- C1: for a timeline of at least 2 keyframes with positive durations and
elapsed time t ≥ 0, the evaluator wraps t modulo the total duration, picks as
active segment the first keyframe i whose cumulative duration exceeds the
wrapped time, and lerps every canonical joint axis linearly from keyframe i
toward keyframe (i+1) mod n with alpha = (wrapped - cumulative(i-1)) /
duration(i) — the segment after the last keyframe thereby targets keyframe 0
using the duration of the last keyframe; on a segment boundary (wrapped =
cumulative(i-1)) alpha is 0 and every joint of the result is exactly the rotation of the start
keyframe (missing joints resolved by the rest pose, which is how the spec
reads partial poses), and at t = 0 it is the pose of keyframe 0. -/
theorem c1_evaluator_segment_lerp (kfs : List Keyframe) (t : ℚ)
    (hn : 2 ≤ kfs.length)
    (hdur : ∀ kf ∈ kfs, 0 < kf.duration)
    (ht : 0 ≤ t) :
    ∃ i, i < kfs.length ∧
      jsMod t (totalDuration kfs) < cum kfs (i + 1) ∧
      (∀ j, j < i → cum kfs (j + 1) ≤ jsMod t (totalDuration kfs)) ∧
      cum kfs i ≤ jsMod t (totalDuration kfs) ∧
      (∀ k r, INITIAL_POSE.lookup k = some r →
        (evalAt kfs t).lookup k =
          some (lerpRot
            (((kfs.getD i dummyKf).pose.lookup k).getD r)
            (((kfs.getD ((i + 1) % kfs.length) dummyKf).pose.lookup k).getD r)
            ((jsMod t (totalDuration kfs) - cum kfs i) /
              (kfs.getD i dummyKf).duration))) ∧
      (jsMod t (totalDuration kfs) = cum kfs i →
        ∀ k r, INITIAL_POSE.lookup k = some r →
          (evalAt kfs t).lookup k =
            some (((kfs.getD i dummyKf).pose.lookup k).getD r)) ∧
      (t = 0 → i = 0 ∧ ∀ k r, INITIAL_POSE.lookup k = some r →
        (evalAt kfs t).lookup k =
          some (((kfs.getD 0 dummyKf).pose.lookup k).getD r)) := by
  have hne : kfs ≠ [] := List.ne_nil_of_length_pos (by omega)
  have hT : 0 < totalDuration kfs := totalDuration_pos kfs hne hdur
  have hw0 : 0 ≤ jsMod t (totalDuration kfs) := jsMod_nonneg t _ ht hT
  have hwT : jsMod t (totalDuration kfs) < totalDuration kfs := jsMod_lt t _ ht hT
  obtain ⟨j, hjlen, heq, hlt2, hge2, hmin⟩ :=
    findSegmentAux_spec (jsMod t (totalDuration kfs)) kfs 0 0 hw0
      (by rw [← totalDuration_eq]; simpa using hwT)
  have hev : evalAt kfs t =
      lerpPose (kfs.getD j dummyKf).pose
        (kfs.getD ((j + 1) % kfs.length) dummyKf).pose
        ((jsMod t (totalDuration kfs) - cum kfs j) /
          (kfs.getD j dummyKf).duration) := by
    simp only [evalAt, evalPose, heq, zero_add]
  have hmain : ∀ k r, INITIAL_POSE.lookup k = some r →
      (evalAt kfs t).lookup k =
        some (lerpRot
          (((kfs.getD j dummyKf).pose.lookup k).getD r)
          (((kfs.getD ((j + 1) % kfs.length) dummyKf).pose.lookup k).getD r)
          ((jsMod t (totalDuration kfs) - cum kfs j) /
            (kfs.getD j dummyKf).duration)) := by
    intro k r hk
    rw [hev, lookup_lerpPose, hk]
    rfl
  have hbound : jsMod t (totalDuration kfs) = cum kfs j →
      ∀ k r, INITIAL_POSE.lookup k = some r →
        (evalAt kfs t).lookup k =
          some (((kfs.getD j dummyKf).pose.lookup k).getD r) := by
    intro hwcum k r hk
    rw [hmain k r hk, hwcum, sub_self, zero_div]
    simp [lerpRot]
  refine ⟨j, hjlen, by simpa using hlt2, (fun m hm => by simpa using hmin m hm),
    by simpa using hge2, hmain, hbound, ?_⟩
  intro h0
  subst h0
  have hw0' : jsMod 0 (totalDuration kfs) = 0 := jsMod_zero_left _
  have hj0 : j = 0 := by
    by_contra hj
    have hm0 := hmin 0 (by omega)
    obtain ⟨k0, rest, rfl⟩ : ∃ k0 rest, kfs = k0 :: rest := by
      cases kfs with
      | nil => simp at hn
      | cons a b => exact ⟨a, b, rfl⟩
    rw [cum_cons_succ, cum_zero, hw0'] at hm0
    have hd0 : 0 < k0.duration := hdur k0 (by simp)
    linarith
  subst hj0
  exact ⟨rfl, hbound (by rw [hw0', cum_zero])⟩

/-- A concrete two-keyframe timeline used by the witnesses. -/
def wkfA : Keyframe := ⟨"a", [("torso", ⟨1, 0, 0⟩)], 1000⟩

/-- Second concrete keyframe of the witness timeline. -/
def wkfB : Keyframe := ⟨"b", [("torso", ⟨0, 1, 0⟩)], 500⟩

/-- The witness timeline: total duration 1500 ms. -/
def wkfs : List Keyframe := [wkfA, wkfB]

/-- Witness for C1 at the concrete timeline `wkfs` and t = 1200: the active
segment is keyframe 1 (wrap segment), alpha = (1200 - 1000) / 500 = 2/5, and
the torso rotation is the lerp from keyframe 1 toward keyframe 0. -/
theorem c1_instance_check :
    (evalAt wkfs 1200).lookup "torso" = some ⟨2/5, 3/5, 0⟩ := by
  obtain ⟨i, hi, hlt, hmin, hge, hmain, hb, h0⟩ :=
    c1_evaluator_segment_lerp wkfs 1200 (by decide) (by decide) (by decide)
  have hi2 : i < 2 := by simpa [wkfs] using hi
  interval_cases i
  · exfalso
    revert hlt
    with_unfolding_all decide
  · have hm := hmain "torso" ⟨0, 0, 0⟩ (by decide)
    rw [hm]
    with_unfolding_all decide

/-- C4: the output pose of the evaluator is purely periodic in elapsed time: for a
timeline of at least 2 keyframes with positive total duration T, the pose at
t + k * T equals the pose at t for every natural k and every t ≥ 0. -/
theorem c4_evaluator_periodic (kfs : List Keyframe) (t : ℚ) (k : ℕ)
    (_hn : 2 ≤ kfs.length) (hT : 0 < totalDuration kfs) (ht : 0 ≤ t) :
    evalAt kfs (t + k * totalDuration kfs) = evalAt kfs t := by
  unfold evalAt
  rw [jsMod_add_nat_mul t (totalDuration kfs) k ht hT]

/-- Witness for C4 on the concrete timeline `wkfs` (T = 1500) at t = 100,
k = 2. -/
theorem c4_periodic_instance :
    evalAt wkfs (100 + ((2 : ℕ) : ℚ) * totalDuration wkfs) = evalAt wkfs 100 :=
  c4_evaluator_periodic wkfs 100 2 (by decide)
    (by with_unfolding_all decide) (by decide)

/-- A concrete recording-in-progress state: two keyframes, both flags set,
anchor already established at 1 ms. -/
def recState : AppState :=
  { currentPose := INITIAL_POSE
    keyframes := wkfs
    isPlaying := true
    isRecording := true
    playbackPose := none
    startTime := 1
    pausedTime := 0 }

/-- Counterexample to C2 as stated: at `recState` with now = 2000 ms
(elapsed = 1999 ≥ T = 1500), the loop-end tick does fire exactly one loopEnd,
but the rendered pose after the tick is the authored current pose (torso at
rest), not the pose of the final keyframe (torso y = 1): `handleRecordingLoopEnd`
clears `playbackPose` (and `isPlaying`), discarding the snapped final pose
that the tick had just pushed. -/
theorem c2_loopend_pose_cex :
    (tick 2000 recState).loopEnd = true ∧
    (tick 2000 recState).posesPushed =
      [(recState.keyframes.getD (recState.keyframes.length - 1) dummyKf).pose] ∧
    (renderedPose (tick 2000 recState).state).lookup "torso" = some ⟨0, 0, 0⟩ ∧
    ((recState.keyframes.getD (recState.keyframes.length - 1) dummyKf).pose).lookup
      "torso" = some ⟨0, 1, 0⟩ ∧
    (renderedPose (tick 2000 recState).state).lookup "torso" ≠
      ((recState.keyframes.getD (recState.keyframes.length - 1) dummyKf).pose).lookup
        "torso" := by
  with_unfolding_all decide

/-- C2 amended: on the first recording tick whose elapsed time since the
anchor reaches the total duration, the runner pushes exactly the final
pose of the final keyframe to the pose callback (no wrapped interpolation is computed)
and emits exactly one loopEnd, and the handler clears the playing flag, the
recording flag and the playback pose together — so the rendered pose after
the tick is the authored current pose, not the pose of the final keyframe. -/
theorem c2_loop_end_amended (s : AppState) (now : ℚ)
    (hp : s.isPlaying = true) (hr : s.isRecording = true)
    (hn : 2 ≤ s.keyframes.length)
    (ha : s.startTime ≠ 0)
    (hend : totalDuration s.keyframes ≤ now - s.startTime) :
    tick now s =
      ⟨{ s with isPlaying := false, isRecording := false, playbackPose := none },
        true,
        [(s.keyframes.getD (s.keyframes.length - 1) dummyKf).pose]⟩ ∧
    renderedPose (tick now s).state = s.currentPose := by
  have hguard : ¬ (s.isPlaying = false ∨ s.keyframes.length < 2) := by
    push_neg
    exact ⟨by rw [hp]; decide, by omega⟩
  have h1 : tick now s =
      ⟨{ s with isPlaying := false, isRecording := false, playbackPose := none },
        true,
        [(s.keyframes.getD (s.keyframes.length - 1) dummyKf).pose]⟩ := by
    rw [tick, if_neg hguard]
    simp only [if_neg ha]
    rw [if_pos ⟨hr, hend⟩]
    rfl
  refine ⟨h1, ?_⟩
  rw [h1]
  rfl

/-- Witness for the amended C2 at `recState`, now = 2000. -/
theorem c2_amended_instance :
    tick 2000 recState =
      ⟨{ recState with isPlaying := false, isRecording := false, playbackPose := none },
        true,
        [(recState.keyframes.getD (recState.keyframes.length - 1) dummyKf).pose]⟩ ∧
    renderedPose (tick 2000 recState).state = recState.currentPose :=
  c2_loop_end_amended recState 2000 rfl rfl (by decide) (by decide)
    (by with_unfolding_all decide)

/-- A concrete playing (non-recording) state with a single keyframe. -/
def playState : AppState :=
  { currentPose := INITIAL_POSE
    keyframes := [wkfA]
    isPlaying := true
    isRecording := false
    playbackPose := none
    startTime := 0
    pausedTime := 0 }

/-- A concrete idle state with a single keyframe. -/
def idleOneState : AppState :=
  { currentPose := INITIAL_POSE
    keyframes := [wkfA]
    isPlaying := false
    isRecording := false
    playbackPose := none
    startTime := 0
    pausedTime := 0 }

/-- A concrete idle state with two keyframes. -/
def idleTwoState : AppState :=
  { currentPose := INITIAL_POSE
    keyframes := wkfs
    isPlaying := false
    isRecording := false
    playbackPose := none
    startTime := 0
    pausedTime := 0 }

/-- Counterexample to C3 as stated: with the controller playing (`playState`),
each of the three mutation handlers silently applies its mutation — the
timeline changes, and no PlaybackActiveError exists anywhere in the code (the
handlers have no error channel at all; the UI only renders the controls
disabled while playing). -/
theorem c3_mutation_guard_cex :
    playState.isPlaying = true ∧
    (handleAddKeyframe "b" playState).keyframes ≠ playState.keyframes ∧
    (handleUpdateKeyframeDuration "a" 250 playState).keyframes ≠
      playState.keyframes ∧
    (handleDeleteKeyframe "a" playState).keyframes ≠ playState.keyframes := by
  with_unfolding_all decide

/-- C3 amended: the store mutation handlers contain no playback guard and the
code defines no PlaybackActiveError; while Playing or Recording each mutation
is applied exactly as when Idle — `add` appends a keyframe built from the
live pose with the 1000 ms default duration whatever the flags; mid-playback
editing is prevented only by the UI disabling the controls. -/
theorem c3_mutations_unguarded (s : AppState) (b r : Bool) (nid id : String)
    (d : ℚ) :
    (handleAddKeyframe nid { s with isPlaying := b, isRecording := r }).keyframes =
      (handleAddKeyframe nid s).keyframes ∧
    (handleUpdateKeyframeDuration id d
        { s with isPlaying := b, isRecording := r }).keyframes =
      (handleUpdateKeyframeDuration id d s).keyframes ∧
    (handleDeleteKeyframe id { s with isPlaying := b, isRecording := r }).keyframes =
      (handleDeleteKeyframe id s).keyframes ∧
    (handleAddKeyframe nid s).keyframes = s.keyframes ++ [⟨nid, s.currentPose, 1000⟩] :=
  ⟨rfl, rfl, rfl, rfl⟩

/-- Counterexample to C5 as stated: the joint lookup of the renderer, `getRot`
resolves a joint missing from the pose to the zero rotation (0,0,0), not to
the rest-pose rotation of INITIAL_POSE, which for upperArmL is (0,0,-1/2). -/
theorem c5_render_fallback_cex :
    getRot ([] : Pose) "upperArmL" = (0, 0, 0) ∧
    restRot "upperArmL" = ⟨0, 0, -(1/2)⟩ ∧
    getRot ([] : Pose) "upperArmL" ≠
      ((restRot "upperArmL").x, (restRot "upperArmL").y, (restRot "upperArmL").z) := by
  with_unfolding_all decide

/-- C5 amended: during interpolation a joint absent from either endpoint pose
resolves to the INITIAL_POSE rest rotation of that joint before lerping, and the
lerp never fails (every canonical joint is present in the result); during
rendering, however, `getRot` resolves a missing joint to the zero rotation
(0, 0, 0), which coincides with the rest pose only for joints whose rest
rotation is zero — neither lookup can error. -/
theorem c5_fallback_amended (sp ep : Pose) (alpha : ℚ) (k : String)
    (r : JointRotation) (hk : INITIAL_POSE.lookup k = some r) :
    (sp.lookup k = none →
      (lerpPose sp ep alpha).lookup k =
        some (lerpRot r ((ep.lookup k).getD r) alpha)) ∧
    (ep.lookup k = none →
      (lerpPose sp ep alpha).lookup k =
        some (lerpRot ((sp.lookup k).getD r) r alpha)) ∧
    ((lerpPose sp ep alpha).lookup k).isSome = true ∧
    (∀ p : Pose, ∀ id, p.lookup id = none → getRot p id = (0, 0, 0)) := by
  refine ⟨?_, ?_, ?_, ?_⟩
  · intro hsp
    rw [lookup_lerpPose, hk, hsp]
    rfl
  · intro hep
    rw [lookup_lerpPose, hk, hep]
    rfl
  · rw [lookup_lerpPose, hk]
    rfl
  · intro p id hnone
    simp [getRot, hnone]

/-- Witness for the amended C5: a pose missing the head joint lerps the head
from the rest rotation, and `getRot` on an empty pose yields zero. -/
theorem c5_fallback_instance :
    (lerpPose [] [("head", ⟨1, 1, 1⟩)] (1/2)).lookup "head" =
      some (lerpRot ⟨0, 0, 0⟩ ⟨1, 1, 1⟩ (1/2)) ∧
    getRot ([] : Pose) "head" = (0, 0, 0) := by
  have h := c5_fallback_amended [] [("head", ⟨1, 1, 1⟩)] (1/2) "head" ⟨0, 0, 0⟩
    (by decide)
  exact ⟨by simpa using h.1 (by decide), h.2.2.2 [] "head" (by decide)⟩

/-- C6: starting a recording (`handleExportVideo`) with fewer than 2
keyframes fails — the handler signals the insufficient-keyframes failure (the
alert message, which realizes InsufficientKeyframesError in this code) and
returns the state exactly as it was, flags and timeline included; with at
least 2 keyframes it sets both the recording and the playing flag and signals
nothing. -/
theorem c6_record_guard (s : AppState) :
    (s.keyframes.length < 2 →
      handleExportVideo s = (s, some "Need at least 2 keyframes to record.")) ∧
    (2 ≤ s.keyframes.length →
      handleExportVideo s =
        ({ s with isRecording := true, isPlaying := true }, none)) := by
  constructor
  · intro h
    rw [handleExportVideo, if_pos h]
  · intro h
    rw [handleExportVideo, if_neg (by omega)]

/-- Witness for C6: rejected with one keyframe, started with two. -/
theorem c6_record_instance :
    handleExportVideo idleOneState =
      (idleOneState, some "Need at least 2 keyframes to record.") ∧
    handleExportVideo idleTwoState =
      ({ idleTwoState with isRecording := true, isPlaying := true }, none) :=
  ⟨(c6_record_guard idleOneState).1 (by decide),
   (c6_record_guard idleTwoState).2 (by decide)⟩

theorem lookup_eq_none_keys :
    ∀ (l : Pose) (k : String), l.lookup k = none → ∀ p ∈ l, p.1 ≠ k := by
  intro l
  induction l with
  | nil =>
    intro k h p hp
    exact absurd hp (List.not_mem_nil p)
  | cons hd tl ih =>
    intro k h p hp
    obtain ⟨a, b⟩ := hd
    by_cases hba : k = a
    · subst hba
      simp [List.lookup] at h
    · have hb : (k == a) = false := beq_eq_false_iff_ne.mpr hba
      simp only [List.lookup, hb] at h
      rcases List.mem_cons.mp hp with heq | htl
      · subst heq
        simpa using fun hcon => hba hcon.symm
      · exact ih k h p htl

theorem removeList_length_of_mem (id : String) :
    ∀ kfs : List Keyframe, (kfs.map Keyframe.id).Nodup →
      ∀ kf ∈ kfs, kf.id = id → (removeList id kfs).length + 1 = kfs.length := by
  intro kfs
  induction kfs with
  | nil =>
    intro _ kf hkf
    exact absurd hkf (List.not_mem_nil kf)
  | cons hd tl ih =>
    intro hnd kf hkf hid
    rw [List.map_cons, List.nodup_cons] at hnd
    obtain ⟨hhd, hndtl⟩ := hnd
    rcases List.mem_cons.mp hkf with heq | htl
    · subst heq
      have hfilter : (kf.id != id) = false := by simp [hid]
      have h1 : removeList id (kf :: tl) = removeList id tl := by
        simp [removeList, List.filter_cons, hfilter]
      have h2 : removeList id tl = tl := by
        rw [removeList, List.filter_eq_self]
        intro a ha
        have hane : a.id ≠ id := by
          intro hcon
          exact hhd (by
            rw [hid, ← hcon]
            exact List.mem_map_of_mem Keyframe.id ha)
        simp [hane]
      rw [h1, h2]
      simp
    · have hhdid : hd.id ≠ id := by
        intro hcon
        exact hhd (by
          rw [hcon, ← hid]
          exact List.mem_map_of_mem Keyframe.id htl)
      have hfilter : (hd.id != id) = true := by simp [hhdid]
      have h1 : removeList id (hd :: tl) = hd :: removeList id tl := by
        simp [removeList, List.filter_cons, hfilter]
      rw [h1]
      simp only [List.length_cons]
      have := ih hndtl kf htl hid
      omega

/-- C7: `updateDuration` rewrites only the duration of the keyframes whose id
matches (position by position: same length, same id and pose everywhere, the
duration replaced exactly where the id matches) and is a no-op on the
timeline when no keyframe has the id; `remove` keeps a subsequence
(preserving relative order) consisting exactly of the keyframes whose id
differs, and under the unique-id invariant of the store it deletes exactly one
entry. -/
theorem c7_store_update_remove (kfs : List Keyframe) (id : String) (d : ℚ) :
    (updateDurationList id d kfs).length = kfs.length ∧
    (∀ j, j < kfs.length →
      (updateDurationList id d kfs).getD j dummyKf =
        (if (kfs.getD j dummyKf).id = id
         then { kfs.getD j dummyKf with duration := d }
         else kfs.getD j dummyKf)) ∧
    ((∀ kf ∈ kfs, kf.id ≠ id) → updateDurationList id d kfs = kfs) ∧
    (removeList id kfs).Sublist kfs ∧
    (∀ kf, kf ∈ removeList id kfs ↔ kf ∈ kfs ∧ kf.id ≠ id) ∧
    ((kfs.map Keyframe.id).Nodup →
      ∀ kf ∈ kfs, kf.id = id → (removeList id kfs).length + 1 = kfs.length) := by
  refine ⟨?_, ?_, ?_, ?_, ?_, ?_⟩
  · simp [updateDurationList]
  · intro j hj
    have hj2 : j < (updateDurationList id d kfs).length := by
      simpa [updateDurationList] using hj
    rw [List.getD_eq_getElem _ _ hj2, List.getD_eq_getElem _ _ hj]
    simp [updateDurationList]
  · intro h
    have : ∀ kf ∈ kfs,
        (if kf.id = id then { kf with duration := d } else kf) = kf :=
      fun kf hkf => if_neg (h kf hkf)
    rw [updateDurationList, List.map_congr_left this]
    simp
  · exact List.filter_sublist kfs
  · intro kf
    simp [removeList, List.mem_filter]
  · exact fun hnd kf hkf hid => removeList_length_of_mem id kfs hnd kf hkf hid

/-- Witness for C7 on `wkfs` with id = "b": length preserved by update, order
preserved by remove, exactly one entry removed. -/
theorem c7_store_instance :
    (updateDurationList "b" 250 wkfs).length = wkfs.length ∧
    (removeList "b" wkfs).Sublist wkfs ∧
    (removeList "b" wkfs).length + 1 = wkfs.length :=
  ⟨(c7_store_update_remove wkfs "b" 250).1,
   (c7_store_update_remove wkfs "b" 250).2.2.2.1,
   (c7_store_update_remove wkfs "b" 250).2.2.2.2.2 (by decide) wkfB (by decide)
     (by decide)⟩

/-- C8: a tick in the Playing state with fewer than 2 keyframes is a complete
no-op — the state (time anchor included) is returned unchanged, no pose is
pushed and no loopEnd fires; and `handlePlayToggle` does admit entering the
Playing state with a single keyframe (it only requires a nonempty
timeline). -/
theorem c8_single_keyframe_tick (s : AppState) (now : ℚ)
    (_hp : s.isPlaying = true) (hlt : s.keyframes.length < 2) :
    tick now s = ⟨s, false, []⟩ ∧
    (∀ s2 : AppState, s2.isPlaying = false → s2.keyframes.length = 1 →
      (handlePlayToggle s2).isPlaying = true) := by
  constructor
  · rw [tick, if_pos (Or.inr hlt)]
  · intro s2 h2 h1
    rw [handlePlayToggle, if_neg (by omega)]
    simp [h2]

/-- Witness for C8 at `playState` (playing, one keyframe), now = 500;
`idleOneState` enters Playing via the toggle. -/
theorem c8_tick_instance :
    tick 500 playState = ⟨playState, false, []⟩ ∧
    (handlePlayToggle idleOneState).isPlaying = true :=
  ⟨(c8_single_keyframe_tick playState 500 rfl (by decide)).1,
   (c8_single_keyframe_tick playState 500 rfl (by decide)).2 idleOneState rfl
     (by decide)⟩

theorem lerpPose_keys (sp ep : Pose) (alpha : ℚ) :
    (lerpPose sp ep alpha).map Prod.fst = INITIAL_POSE.map Prod.fst := by
  simp [lerpPose, List.map_map, Function.comp]

/-- C9: one evaluation tick produces a pose whose key list is exactly the ten
canonical joints of INITIAL_POSE, in order: every canonical joint is present,
a non-canonical key is absent from the result, and a non-canonical binding
prepended to either input pose is ignored; this key discipline holds for the
full evaluator output as well. -/
theorem c9_canonical_keys (sp ep : Pose) (alpha : ℚ) :
    (lerpPose sp ep alpha).map Prod.fst = INITIAL_POSE.map Prod.fst ∧
    (∀ k, (INITIAL_POSE.lookup k).isSome = true →
      ((lerpPose sp ep alpha).lookup k).isSome = true) ∧
    (∀ k, INITIAL_POSE.lookup k = none → (lerpPose sp ep alpha).lookup k = none) ∧
    (∀ k r, INITIAL_POSE.lookup k = none →
      lerpPose ((k, r) :: sp) ep alpha = lerpPose sp ep alpha ∧
      lerpPose sp ((k, r) :: ep) alpha = lerpPose sp ep alpha) ∧
    (∀ (kfs : List Keyframe) (e : ℚ),
      (evalPose kfs e).map Prod.fst = INITIAL_POSE.map Prod.fst) := by
  refine ⟨lerpPose_keys sp ep alpha, ?_, ?_, ?_, ?_⟩
  · intro k hk
    rw [lookup_lerpPose]
    simpa using hk
  · intro k hk
    rw [lookup_lerpPose, hk]
    rfl
  · intro k r hk
    have hne : ∀ p ∈ INITIAL_POSE, p.1 ≠ k := lookup_eq_none_keys INITIAL_POSE k hk
    constructor
    · rw [lerpPose, lerpPose]
      apply List.map_congr_left
      intro p hp
      have hb : (p.1 == k) = false := beq_eq_false_iff_ne.mpr (hne p hp)
      simp [List.lookup, hb]
    · rw [lerpPose, lerpPose]
      apply List.map_congr_left
      intro p hp
      have hb : (p.1 == k) = false := beq_eq_false_iff_ne.mpr (hne p hp)
      simp [List.lookup, hb]
  · intro kfs e
    exact lerpPose_keys _ _ _

/-- Witness for C9: a pose consisting only of the non-canonical key "zzz"
produces the canonical key list, "zzz" is absent from the result, and the
binding is ignored entirely. -/
theorem c9_keys_instance :
    (lerpPose [("zzz", ⟨7, 7, 7⟩)] [] (1/3)).map Prod.fst =
      INITIAL_POSE.map Prod.fst ∧
    (lerpPose [("zzz", ⟨7, 7, 7⟩)] [] (1/3)).lookup "zzz" = none ∧
    lerpPose [("zzz", ⟨7, 7, 7⟩)] [] (1/3) = lerpPose [] [] (1/3) :=
  ⟨(c9_canonical_keys [("zzz", ⟨7, 7, 7⟩)] [] (1/3)).1,
   (c9_canonical_keys [("zzz", ⟨7, 7, 7⟩)] [] (1/3)).2.2.1 "zzz" (by decide),
   ((c9_canonical_keys [] [] (1/3)).2.2.2.1 "zzz" ⟨7, 7, 7⟩ (by decide)).1⟩

/-- C10: toggling play while the Playing flag is set (timeline nonempty)
clears the playing and recording flags and discards the playback pose, all
other state untouched; the toggle path emits no loopEnd (the handler has no
event output at all), so a recording session can be exited this way without a
loopEnd ever firing. -/
theorem c10_toggle_stop (s : AppState)
    (hp : s.isPlaying = true) (h1 : 1 ≤ s.keyframes.length) :
    handlePlayToggle s =
      { s with isPlaying := false, isRecording := false, playbackPose := none } := by
  rw [handlePlayToggle, if_neg (by omega)]
  simp [hp]

/-- Witness for C10 at `playState`. -/
theorem c10_toggle_instance :
    handlePlayToggle playState =
      { playState with isPlaying := false, isRecording := false, playbackPose := none } :=
  c10_toggle_stop playState rfl (by decide)

end Stickman
